import Mathlib

/-!
Shallow embedding of `brax/physics/base.py` (core brax structs and the
config-normalization pass), together with theorems checking the
natural-language specification against it.

Python floats are idealized as rationals (`ℚ`): every property at stake is a
zero-test, a boolean combination or an exact algebraic identity, none of which
depends on rounding.  The dynamically-shaped `jp.ndarray` fields appear at two
concrete instantiations: plain 3-vectors / quaternions (`Vec3`, `Quat`) for the
per-body state algebra, and row-major shaped tensors (`Tensor`) for the batched
constructors and sums.
-/

/-- A 3-vector with rational components (one `jp.ndarray` of shape `(3,)`). -/
structure Vec3 where
  x : ℚ
  y : ℚ
  z : ℚ
  deriving Repr, DecidableEq

instance : Add Vec3 := ⟨fun a b => ⟨a.x + b.x, a.y + b.y, a.z + b.z⟩⟩

instance : Sub Vec3 := ⟨fun a b => ⟨a.x - b.x, a.y - b.y, a.z - b.z⟩⟩

/-- Scale a 3-vector by a scalar. -/
def Vec3.smul (c : ℚ) (v : Vec3) : Vec3 := ⟨c * v.x, c * v.y, c * v.z⟩

/-- Dot product of two 3-vectors (`jp.dot`). -/
def Vec3.dot (a b : Vec3) : ℚ := a.x * b.x + a.y * b.y + a.z * b.z

/-- Cross product of two 3-vectors.  Modelled from the spec: the numeric array
abstraction's cross product (`jp.cross`, the `brax.jumpy` wrapper around
`numpy.cross`, not under `src/`), the standard 3-dimensional cross product. -/
def Vec3.cross (a b : Vec3) : Vec3 :=
  ⟨a.y * b.z - a.z * b.y, a.z * b.x - a.x * b.z, a.x * b.y - a.y * b.x⟩

/-- The zero 3-vector. -/
def Vec3.zero : Vec3 := ⟨0, 0, 0⟩

/-- A quaternion in w-first convention (one `jp.ndarray` of shape `(4,)`). -/
structure Quat where
  w : ℚ
  x : ℚ
  y : ℚ
  z : ℚ
  deriving Repr, DecidableEq

instance : Add Quat := ⟨fun a b => ⟨a.w + b.w, a.x + b.x, a.y + b.y, a.z + b.z⟩⟩

/-- The identity quaternion `[1, 0, 0, 0]`. -/
def Quat.id : Quat := ⟨1, 0, 0, 0⟩

/-- Rotate vector `vec` by unit quaternion `quat`.  Modelled from the spec: the
external rotation/vector math utility "quaternion rotation of a vector"
(`brax.math.rotate`, not under `src/`): with scalar part `s` and vector part
`u`, the rotated vector is `2 (u·v) u + (s² − u·u) v + 2 s (u × v)`. -/
def rotate (vec : Vec3) (quat : Quat) : Vec3 :=
  let s : ℚ := quat.w
  let u : Vec3 := ⟨quat.x, quat.y, quat.z⟩
  Vec3.smul (2 * u.dot vec) u + Vec3.smul (s * s - u.dot u) vec
    + Vec3.smul (2 * s) (u.cross vec)

/-- `Q`: coordinates (position and rotation) of a body, from `base.Q`. -/
structure Q where
  pos : Vec3
  rot : Quat
  deriving Repr, DecidableEq

/-- `P`: time derivatives (velocity and angular velocity), from `base.P`. -/
structure P where
  vel : Vec3
  ang : Vec3
  deriving Repr, DecidableEq

/-- `QP`: a coordinate and time derivative frame for a brax body. -/
structure QP where
  pos : Vec3
  rot : Quat
  vel : Vec3
  ang : Vec3
  deriving Repr, DecidableEq

/-- `Q.__add__` on a `P` operand: `QP(self.pos, self.rot, o.vel, o.ang)`. -/
def Q.addP (q : Q) (o : P) : QP := ⟨q.pos, q.rot, o.vel, o.ang⟩

/-- `Q.__add__` on a `Q` operand: `Q(self.pos + o.pos, self.rot + o.rot)`. -/
def Q.addQ (q : Q) (o : Q) : Q := ⟨q.pos + o.pos, q.rot + o.rot⟩

/-- `Q.__add__` on a `QP` operand. -/
def Q.addQP (q : Q) (o : QP) : QP := ⟨q.pos + o.pos, q.rot + o.rot, o.vel, o.ang⟩

/-- `P.__add__` on a `P` operand: `P(self.vel + o.vel, self.ang + o.ang)`. -/
def P.addP (p : P) (o : P) : P := ⟨p.vel + o.vel, p.ang + o.ang⟩

/-- `P.__add__` on a `Q` operand: `QP(o.pos, o.rot, self.vel, self.ang)`. -/
def P.addQ (p : P) (o : Q) : QP := ⟨o.pos, o.rot, p.vel, p.ang⟩

/-- `P.__add__` on a `QP` operand. -/
def P.addQP (p : P) (o : QP) : QP := ⟨o.pos, o.rot, p.vel + o.vel, p.ang + o.ang⟩

/-- `P.__mul__`: scale both fields by a scalar. -/
def P.mul (p : P) (c : ℚ) : P := ⟨Vec3.smul c p.vel, Vec3.smul c p.ang⟩

/-- `QP.__add__` on a `P` operand. -/
def QP.addP (q : QP) (o : P) : QP := ⟨q.pos, q.rot, q.vel + o.vel, q.ang + o.ang⟩

/-- `QP.__add__` on a `Q` operand. -/
def QP.addQ (q : QP) (o : Q) : QP := ⟨q.pos + o.pos, q.rot + o.rot, q.vel, q.ang⟩

/-- `QP.__add__` on a `QP` operand. -/
def QP.addQP (q : QP) (o : QP) : QP :=
  ⟨q.pos + o.pos, q.rot + o.rot, q.vel + o.vel, q.ang + o.ang⟩

/-- `QP.to_world`: world position and world velocity of a point `rpos` given
relative to the body's center of mass.  From the source:
`rpos_off = math.rotate(rpos, self.rot); rvel = jp.cross(self.ang, rpos_off);
return (self.pos + rpos_off, self.vel + rvel)`. -/
def QP.to_world (q : QP) (rpos : Vec3) : Vec3 × Vec3 :=
  let rpos_off := rotate rpos q.rot
  let rvel := q.ang.cross rpos_off
  (q.pos + rpos_off, q.vel + rvel)

/-- `QP.world_velocity`: velocity of a world-space point rigidly attached to
the body: `self.vel + jp.cross(self.ang, pos - self.pos)`. -/
def QP.world_velocity (q : QP) (pos : Vec3) : Vec3 :=
  q.vel + q.ang.cross (pos - q.pos)

/-! ### Batched tensors

The `jp.ndarray` fields of the brax structs are dynamically shaped; for the
batched constructors and sums we embed them as shaped row-major tensors, the
layout `numpy` itself uses (a shape plus a flat data buffer). -/

/-- A shaped numeric tensor in row-major layout (a batched `jp.ndarray`). -/
structure Tensor where
  shape : List Nat
  data : List ℚ
  deriving Repr, DecidableEq

/-- Elementwise sum of two tensors (`ndarray` `+`).  Broadcasting of distinct
shapes is not modelled; the properties proved below quantify over same-shaped
operands. -/
def Tensor.add (a b : Tensor) : Tensor :=
  ⟨a.shape, List.zipWith (· + ·) a.data b.data⟩

/-- `jp.zeros(sh)`: the all-zeros tensor of shape `sh`. -/
def Tensor.zeros (sh : List Nat) : Tensor :=
  ⟨sh, List.replicate sh.prod 0⟩

/-- `jp.tile(v, reps=reps + (1,))` for a rank-1 array `v`: the vector is
replicated over the leading dimensions `reps` (the trailing rep of `1` leaves
the vector itself unrepeated), giving shape `reps + (len(v),)`. -/
def Tensor.tileVec (v : List ℚ) (reps : List Nat) : Tensor :=
  ⟨reps ++ [v.length], (List.replicate reps.prod v).flatten⟩

/-- Whether a multi-index lies within a shape, dimension by dimension. -/
def inBounds : List Nat → List Nat → Bool
  | [], [] => true
  | i :: is, n :: sh => i < n && inBounds is sh
  | _, _ => false

/-- Row-major flat offset of a multi-index within a shape. -/
def flatIdx : List Nat → List Nat → Nat
  | i :: is, _ :: sh => i * sh.prod + flatIdx is sh
  | _, _ => 0

/-- The scalar entry of a tensor at a full multi-index. -/
def Tensor.get (t : Tensor) (idx : List Nat) : Option ℚ :=
  if inBounds idx t.shape then t.data[flatIdx idx t.shape]? else none

namespace Batched

/-- `base.P` at batched array type: `vel` and `ang` are same-shaped tensors. -/
structure P where
  vel : Tensor
  ang : Tensor
  deriving Repr, DecidableEq

/-- `P.__add__` on a `P` operand, at batched type:
`P(self.vel + o.vel, self.ang + o.ang)`. -/
def P.add (a b : P) : P := ⟨a.vel.add b.vel, a.ang.add b.ang⟩

/-- Two batched `P` values share a batch shape when their respective fields
have equal shapes. -/
def P.sameShape (a b : P) : Prop :=
  a.vel.shape = b.vel.shape ∧ a.ang.shape = b.ang.shape

/-- `base.QP` at batched array type. -/
structure QP where
  pos : Tensor
  rot : Tensor
  vel : Tensor
  ang : Tensor
  deriving Repr, DecidableEq

/-- `QP.zero(shape)`: `pos`, `vel`, `ang` are `jp.zeros(shape + (3,))` and
`rot` is `jp.tile(jp.array([1., 0., 0., 0]), reps=shape + (1,))`. -/
def QP.zero (s : List Nat) : QP :=
  ⟨Tensor.zeros (s ++ [3]), Tensor.tileVec [1, 0, 0, 0] s,
   Tensor.zeros (s ++ [3]), Tensor.zeros (s ++ [3])⟩

end Batched

/-! ### Scene config (`config_pb2`) and `validate_config`

Proto float fields are rationals defaulting to `0`; proto repeated fields are
lists; a proto sub-message field tested with `HasField` is an `Option`.  The
per-axis frozen flags are floats that the Python code combines with `or` and
`all`, i.e. by truthiness, so they are kept as rationals here. -/

/-- A `Frozen` proto message: per-axis frozen flags (float `Vector3`s) plus
the `all` flag. -/
structure Frozen where
  position : Vec3
  rotation : Vec3
  all : Bool
  deriving Repr, DecidableEq

/-- A collider `Material` proto message. -/
structure Material where
  friction : ℚ
  elasticity : ℚ
  deriving Repr, DecidableEq

/-- A `Collider` proto message, reduced to the field the normalizer touches:
`material` is `none` when `HasField` is false on it. -/
structure Collider where
  material : Option Material
  deriving Repr, DecidableEq

/-- A `Body` proto message, reduced to the fields the normalizer touches. -/
structure Body where
  name : String
  inertia : Vec3
  frozen : Frozen
  colliders : List Collider
  deriving Repr, DecidableEq

/-- A named config entity whose other fields the normalizer never reads
(a joint or an actuator). -/
structure Named where
  name : String
  deriving Repr, DecidableEq

/-- A `MeshGeometry` proto message: a resource path plus literal geometry
data. -/
structure MeshGeometry where
  name : String
  path : String
  vertices : List Vec3
  faces : List Int
  vertex_normals : List Vec3
  face_normals : List Vec3
  deriving Repr, DecidableEq

/-- The mesh data returned by `trimesh.exchange.load.load_mesh`: vertices,
face-index triples (flattened on ingestion), vertex normals and face
normals. -/
structure Mesh where
  vertices : List Vec3
  faces : List (List Int)
  vertex_normals : List Vec3
  face_normals : List Vec3
  deriving Repr, DecidableEq

/-- The resource filesystem the normalizer consumes: an existence check
(`file.Exists`) and the mesh parsed from the file at a path
(`file.File` plus `load_mesh`). -/
structure FS where
  fileExists : String → Bool
  load : String → Mesh

/-- `os.path.join(a, b)` for the cases the normalizer exercises: joining with
an empty directory returns the relative path itself. -/
def pathJoin (a b : String) : String :=
  if a = "" then b else a ++ "/" ++ b

/-- The `Config` proto message, reduced to the fields `validate_config` reads
or writes. -/
structure Config where
  dt : ℚ
  substeps : Nat
  friction : ℚ
  elasticity : ℚ
  bodies : List Body
  joints : List Named
  actuators : List Named
  mesh_geometries : List MeshGeometry
  frozen : Frozen
  deriving Repr, DecidableEq

/-- The failures `validate_config` raises: `invalidConfig` is the
`RuntimeError` for a non-positive `dt`, `duplicateName` the `RuntimeError`
naming a repeated name, `missingResource` the assertion naming a mesh path
found in no resource directory. -/
inductive Err where
  | invalidConfig : Err
  | duplicateName : String → Err
  | missingResource : String → Err
  deriving Repr, DecidableEq

/-- Scan of `find_dupes`: `seen` is the set of names already passed. -/
def findDupeAux : List String → List String → Option String
  | _, [] => none
  | seen, n :: rest => if n ∈ seen then some n else findDupeAux (n :: seen) rest

/-- `find_dupes`: the first name in the list that repeats an earlier one
(the source raises at the first duplicate encountered). -/
def find_dupes (names : List String) : Option String := findDupeAux [] names

/-- The four `find_dupes` calls of `validate_config`, in source order
(bodies, joints, actuators, mesh geometries); the first duplicate found is
the one reported. -/
def dupeError (c : Config) : Option String :=
  find_dupes (c.bodies.map Body.name)
    <|> find_dupes (c.joints.map Named.name)
    <|> find_dupes (c.actuators.map Named.name)
    <|> find_dupes (c.mesh_geometries.map MeshGeometry.name)

/-- One iteration of the mesh-resolution loop of `validate_config`: for a
geometry with a non-empty path, `vertices` and `faces` are deleted (the
source's `del` statements touch only those two lists; the normal lists are
appended to by `add`), the resource directories are searched in order, the
mesh is loaded from the first directory whose joined path exists and its data
appended, and the path is cleared; if no directory has the file, the
assertion fires. -/
def resolveMeshGeom (fs : FS) (resource_paths : List String) (g : MeshGeometry) :
    Except Err MeshGeometry :=
  if g.path = "" then .ok g
  else
    let g1 : MeshGeometry := { g with vertices := [], faces := [] }
    match resource_paths.find? (fun rp => fs.fileExists (pathJoin rp g.path)) with
    | none => .error (.missingResource g.path)
    | some rp =>
      let m := fs.load (pathJoin rp g.path)
      .ok { g1 with
        vertices := g1.vertices ++ m.vertices,
        faces := g1.faces ++ m.faces.flatten,
        vertex_normals := g1.vertex_normals ++ m.vertex_normals,
        face_normals := g1.face_normals ++ m.face_normals,
        path := "" }

/-- `Vector3(x=1.0, y=1.0, z=1.0)`, the `allvec` of `validate_config`. -/
def allvec : Vec3 := ⟨1, 1, 1⟩

/-- Python truthiness of a proto float flag. -/
def truthy (q : ℚ) : Bool := q ≠ 0

/-- Python `a or b` on float flags: the first operand when truthy, else the
second. -/
def pyOr (a b : ℚ) : ℚ := if a ≠ 0 then a else b

/-- Python `all([...])` over the six per-axis flags of a `Frozen` message. -/
def sixTruthy (f : Frozen) : Bool :=
  truthy f.position.x && truthy f.position.y && truthy f.position.z &&
  truthy f.rotation.x && truthy f.rotation.y && truthy f.rotation.z

/-- `substeps` defaulting: a zero `substeps` becomes `1`. -/
def substepsDefaulted (c : Config) : Config :=
  { c with substeps := if c.substeps = 0 then 1 else c.substeps }

/-- The global frozen-flag reification of `validate_config`: a set global
`frozen.all` is expanded into the six per-axis flags, and `frozen.all` is
derived when the six flags are all truthy (the derived value is later
overwritten by the final conjunction over the bodies). -/
def reifyGlobalFrozen (f : Frozen) : Frozen :=
  let f1 := if f.all then { f with position := allvec, rotation := allvec } else f
  if sixTruthy f1 then { f1 with all := true } else f1

/-- The per-body block of `validate_config`'s loop over `config.bodies`:
default an all-zero inertia to `(1,1,1)`, OR the six frozen flags with the
(already expanded) global ones, expand the body's `frozen.all` into the six
flags, re-derive `frozen.all` when the six flags are all truthy, and give
material-less colliders the global friction and elasticity. -/
def normalizeBody (frozen : Frozen) (friction elasticity : ℚ) (b : Body) : Body :=
  let inertia :=
    if b.inertia.x = 0 ∧ b.inertia.y = 0 ∧ b.inertia.z = 0 then allvec else b.inertia
  let fpos : Vec3 :=
    ⟨pyOr b.frozen.position.x frozen.position.x,
     pyOr b.frozen.position.y frozen.position.y,
     pyOr b.frozen.position.z frozen.position.z⟩
  let frot : Vec3 :=
    ⟨pyOr b.frozen.rotation.x frozen.rotation.x,
     pyOr b.frozen.rotation.y frozen.rotation.y,
     pyOr b.frozen.rotation.z frozen.rotation.z⟩
  let bf1 : Frozen := if b.frozen.all then ⟨allvec, allvec, true⟩ else ⟨fpos, frot, false⟩
  let bf2 : Frozen := if sixTruthy bf1 then { bf1 with all := true } else bf1
  let colliders := b.colliders.map fun c =>
    match c.material with
    | some _ => c
    | none => { c with material := some ⟨friction, elasticity⟩ }
  { b with inertia := inertia, frozen := bf2, colliders := colliders }

/-- The tail of `validate_config` once the mesh geometries have been
resolved: reify the global frozen flags, normalize every body against them,
and redefine the global `frozen.all` as the conjunction of the bodies'
derived `frozen.all` flags. -/
def normalizeRest (c : Config) (geoms : List MeshGeometry) : Config :=
  let frozen := reifyGlobalFrozen c.frozen
  let bodies := c.bodies.map (normalizeBody frozen c.friction c.elasticity)
  { c with
    mesh_geometries := geoms,
    bodies := bodies,
    frozen := { frozen with all := bodies.all fun b => b.frozen.all } }

/-- The mesh-resolution loop of `validate_config` over all mesh geometries,
stopping at the first failure (the Python loop raises there). -/
def resolveMeshGeoms (fs : FS) (rps : List String) :
    List MeshGeometry → Except Err (List MeshGeometry)
  | [] => .ok []
  | g :: rest =>
    match resolveMeshGeom fs rps g with
    | .error e => .error e
    | .ok g1 =>
      match resolveMeshGeoms fs rps rest with
      | .error e => .error e
      | .ok rest1 => .ok (g1 :: rest1)

/-- `validate_config(config, resource_paths)`: validate and normalize config
settings.  A `none` for `resource_paths` stands for the Python default, which
the source replaces by the single empty directory; the source's in-place
mutation is embedded as returning the normalized value. -/
def validate_config (fs : FS) (resource_paths : Option (List String))
    (config : Config) : Except Err Config :=
  if config.dt ≤ 0 then .error .invalidConfig
  else
    match dupeError (substepsDefaulted config) with
    | some n => .error (.duplicateName n)
    | none =>
      match resolveMeshGeoms fs (resource_paths.getD [""])
          (substepsDefaulted config).mesh_geometries with
      | .error e => .error e
      | .ok geoms => .ok (normalizeRest (substepsDefaulted config) geoms)

/-! ### Sample values used to instantiate the theorems -/

/-- A filesystem with no files at all. -/
def fsEmpty : FS := ⟨fun _ => false, fun _ => ⟨[], [], [], []⟩⟩

/-- A `Frozen` message with every flag unset (proto defaults). -/
def emptyFrozen : Frozen := ⟨⟨0, 0, 0⟩, ⟨0, 0, 0⟩, false⟩

/-- A minimal valid config: positive `dt`, no entities. -/
def cfgBase : Config := ⟨1, 0, 0, 0, [], [], [], [], emptyFrozen⟩

/-- A body named `a` with proto-default fields. -/
def bodyA : Body := ⟨"a", ⟨0, 0, 0⟩, emptyFrozen, []⟩

/-- A config with `dt = 0` that also carries a duplicate body name, showing
the `dt` check fires before the duplicate check. -/
def cfgDtZero : Config := { cfgBase with dt := 0, bodies := [bodyA, bodyA] }

/-- A body with a nonzero inertia axis and one frozen rotation flag set. -/
def bodyFroz : Body := ⟨"b", ⟨2, 0, 0⟩, ⟨⟨0, 0, 0⟩, ⟨0, 1, 0⟩, false⟩, []⟩

/-- A config with one body and the global `position.x` frozen flag set. -/
def cfgFroz : Config :=
  { cfgBase with bodies := [bodyFroz], frozen := ⟨⟨1, 0, 0⟩, ⟨0, 0, 0⟩, false⟩ }

/-- The mesh that `fsMesh` parses from any file. -/
def meshSample : Mesh := ⟨[⟨1, 2, 3⟩], [[0, 1, 2]], [⟨1, 0, 0⟩], [⟨0, 0, 1⟩]⟩

/-- A mesh geometry with a path and stale literal data of every kind. -/
def geomSample : MeshGeometry :=
  ⟨"g", "m.obj", [⟨9, 9, 9⟩], [7], [⟨0, 0, 1⟩], [⟨5, 5, 5⟩]⟩

/-- A filesystem holding exactly the file `m.obj`, parsed as `meshSample`. -/
def fsMesh : FS := ⟨fun p => p == "m.obj", fun _ => meshSample⟩

/-- A config whose only mesh geometry is `geomSample`. -/
def cfgMesh : Config := { cfgBase with mesh_geometries := [geomSample] }

/-- A config with two bodies: one with all-zero inertia, one with inertia
`(2,0,0)`. -/
def cfgInertia : Config := { cfgBase with bodies := [bodyA, bodyFroz] }

/-- `bodyA` as normalized by `validate_config` on `cfgInertia`. -/
def bodyAOut : Body := ⟨"a", ⟨1, 1, 1⟩, emptyFrozen, []⟩

/-- `bodyFroz` as normalized against an all-unset global `Frozen`. -/
def bodyFrozOutBase : Body := ⟨"b", ⟨2, 0, 0⟩, ⟨⟨0, 0, 0⟩, ⟨0, 1, 0⟩, false⟩, []⟩

/-- The output of `validate_config` on `cfgInertia`. -/
def cfgInertiaOut : Config :=
  { cfgBase with substeps := 1, bodies := [bodyAOut, bodyFrozOutBase] }

/-- `bodyFroz` as normalized by `validate_config` on `cfgFroz`. -/
def bodyFrozOut : Body := ⟨"b", ⟨2, 0, 0⟩, ⟨⟨1, 0, 0⟩, ⟨0, 1, 0⟩, false⟩, []⟩

/-- The output of `validate_config` on `cfgFroz`. -/
def cfgFrozOut : Config :=
  { cfgBase with
    substeps := 1,
    bodies := [bodyFrozOut],
    frozen := ⟨⟨1, 0, 0⟩, ⟨0, 0, 0⟩, false⟩ }

/-- The output of `validate_config` on `cfgBase`. -/
def cfgBaseOut : Config :=
  { cfgBase with substeps := 1, frozen := { emptyFrozen with all := true } }

/-- `geomSample` as resolved against `fsMesh`: vertices and faces replaced by
the loaded data, the loaded normals appended after the stale ones, path
cleared. -/
def geomSampleOut : MeshGeometry :=
  ⟨"g", "", [⟨1, 2, 3⟩], [0, 1, 2], [⟨0, 0, 1⟩, ⟨1, 0, 0⟩], [⟨5, 5, 5⟩, ⟨0, 0, 1⟩]⟩

/-- The output of `validate_config` on `cfgMesh` against `fsMesh`. -/
def cfgMeshOut : Config :=
  { cfgBase with
    substeps := 1,
    mesh_geometries := [geomSampleOut],
    frozen := { emptyFrozen with all := true } }

/-- A sample batched `P` value used to instantiate the batched theorems. -/
def sampleP1 : Batched.P := ⟨⟨[2], [1, 2]⟩, ⟨[2], [3, 4]⟩⟩

/-- A second sample batched `P` value of the same batch shape. -/
def sampleP2 : Batched.P := ⟨⟨[2], [5, 6]⟩, ⟨[2], [7, 8]⟩⟩

/-- A third sample batched `P` value of the same batch shape. -/
def sampleP3 : Batched.P := ⟨⟨[2], [9, 10]⟩, ⟨[2], [11, 12]⟩⟩

/-! ### Helper lemmas -/

theorem vecAdd_def (a b : Vec3) : a + b = ⟨a.x + b.x, a.y + b.y, a.z + b.z⟩ := rfl

theorem Vec3.sub_def (a b : Vec3) : a - b = ⟨a.x - b.x, a.y - b.y, a.z - b.z⟩ := rfl

theorem quatAdd_def (a b : Quat) : a + b = ⟨a.w + b.w, a.x + b.x, a.y + b.y, a.z + b.z⟩ := rfl

/-! ### Claim theorems -/

/-- C2: for every `QP` value `q` and local point `rpos`, `q.to_world rpos`
returns `(q.pos + rotate rpos q.rot, q.vel + q.ang × rotate rpos q.rot)`;
and when `rpos` is the zero vector and the rotation is the identity quaternion
the result is `(pos, vel)` unchanged. -/
theorem c2_to_world_spec :
    (∀ (q : QP) (rpos : Vec3),
      q.to_world rpos =
        (q.pos + rotate rpos q.rot, q.vel + q.ang.cross (rotate rpos q.rot)))
    ∧ (∀ (p v a : Vec3), (QP.mk p Quat.id v a).to_world Vec3.zero = (p, v)) := by
  refine ⟨fun q rpos => rfl, fun p v a => ?_⟩
  obtain ⟨px, py, pz⟩ := p
  obtain ⟨vx, vy, vz⟩ := v
  obtain ⟨ax, ay, az⟩ := a
  simp only [QP.to_world, rotate, Quat.id, Vec3.zero, Vec3.dot, Vec3.cross,
    Vec3.smul, vecAdd_def, Prod.mk.injEq, Vec3.mk.injEq]
  refine ⟨⟨by ring, by ring, by ring⟩, by ring, by ring, by ring⟩

/-- C4: combining a pose `Q(p, r)` with a motion derivative `P(v, w)` yields
`QP(p, r, v, w)`, in either order. -/
theorem c4_q_plus_p_order_independent :
    ∀ (p : Vec3) (r : Quat) (v w : Vec3),
      Q.addP ⟨p, r⟩ ⟨v, w⟩ = QP.mk p r v w ∧ P.addQ ⟨v, w⟩ ⟨p, r⟩ = QP.mk p r v w :=
  fun _ _ _ _ => ⟨rfl, rfl⟩

/-- C5: `q.world_velocity pos` returns `q.vel + q.ang × (pos - q.pos)`, and at
`pos = q.pos` (the center of mass) it returns exactly `q.vel`. -/
theorem c5_world_velocity_spec :
    (∀ (q : QP) (pos : Vec3), q.world_velocity pos = q.vel + q.ang.cross (pos - q.pos))
    ∧ (∀ q : QP, q.world_velocity q.pos = q.vel) := by
  refine ⟨fun q pos => rfl, fun q => ?_⟩
  obtain ⟨⟨px, py, pz⟩, rot, ⟨vx, vy, vz⟩, ⟨ax, ay, az⟩⟩ := q
  simp only [QP.world_velocity, Vec3.cross, Vec3.sub_def, vecAdd_def, Vec3.mk.injEq]
  refine ⟨by ring, by ring, by ring⟩

theorem inBounds_length {idx s : List Nat} (h : inBounds idx s = true) :
    idx.length = s.length := by
  induction idx generalizing s with
  | nil =>
    cases s with
    | nil => rfl
    | cons n sh => simp [inBounds] at h
  | cons i is ih =>
    cases s with
    | nil => simp [inBounds] at h
    | cons n sh =>
      simp only [inBounds, Bool.and_eq_true] at h
      simp [ih h.2]

theorem flatIdx_lt_prod {idx s : List Nat} (h : inBounds idx s = true) :
    flatIdx idx s < s.prod := by
  induction idx generalizing s with
  | nil =>
    cases s with
    | nil => simp [flatIdx]
    | cons n sh => simp [inBounds] at h
  | cons i is ih =>
    cases s with
    | nil => simp [inBounds] at h
    | cons n sh =>
      simp only [inBounds, Bool.and_eq_true, decide_eq_true_eq] at h
      have h1 : flatIdx is sh < sh.prod := ih h.2
      have h2 : i + 1 ≤ n := h.1
      calc flatIdx (i :: is) (n :: sh) = i * sh.prod + flatIdx is sh := rfl
        _ < (i + 1) * sh.prod := by nlinarith
        _ ≤ n * sh.prod := Nat.mul_le_mul_right _ h2
        _ = (n :: sh).prod := by simp [List.prod_cons, Nat.mul_comm]

theorem flatIdx_append {idx s : List Nat} (j k : Nat) (h : idx.length = s.length) :
    flatIdx (idx ++ [j]) (s ++ [k]) = flatIdx idx s * k + j := by
  induction idx generalizing s with
  | nil =>
    cases s with
    | nil => simp [flatIdx]
    | cons n sh => simp at h
  | cons i is ih =>
    cases s with
    | nil => simp at h
    | cons n sh =>
      simp only [List.length_cons, Nat.add_right_cancel_iff] at h
      calc flatIdx ((i :: is) ++ [j]) ((n :: sh) ++ [k])
          = i * (sh ++ [k]).prod + flatIdx (is ++ [j]) (sh ++ [k]) := rfl
        _ = i * (sh.prod * k) + (flatIdx is sh * k + j) := by
            rw [ih h]; simp [List.prod_append]
        _ = (i * sh.prod + flatIdx is sh) * k + j := by ring
        _ = flatIdx (i :: is) (n :: sh) * k + j := rfl

theorem inBounds_append {idx s : List Nat} (j k : Nat) (h : inBounds idx s = true)
    (hj : j < k) : inBounds (idx ++ [j]) (s ++ [k]) = true := by
  induction idx generalizing s with
  | nil =>
    cases s with
    | nil => simpa [inBounds] using hj
    | cons n sh => simp [inBounds] at h
  | cons i is ih =>
    cases s with
    | nil => simp [inBounds] at h
    | cons n sh =>
      simp only [inBounds, Bool.and_eq_true] at h
      simp only [List.cons_append, inBounds, Bool.and_eq_true]
      exact ⟨h.1, ih h.2⟩

theorem flatten_replicate_get (v : List ℚ) :
    ∀ (n k j : Nat), k < n → j < v.length →
      ((List.replicate n v).flatten)[k * v.length + j]? = v[j]? := by
  intro n
  induction n with
  | zero => intro k j hk _; exact absurd hk (Nat.not_lt_zero k)
  | succ n ih =>
    intro k j hk hj
    cases k with
    | zero =>
      simp only [List.replicate_succ, List.flatten_cons, Nat.zero_mul, Nat.zero_add]
      exact List.getElem?_append_left hj
    | succ k =>
      have hsplit : (k + 1) * v.length + j = v.length + (k * v.length + j) := by ring
      rw [List.replicate_succ, List.flatten_cons, hsplit,
        List.getElem?_append_right (Nat.le_add_right v.length (k * v.length + j))]
      simp only [Nat.add_sub_cancel_left]
      exact ih k j (Nat.lt_of_succ_lt_succ hk) hj

theorem zipWith_add_assoc (l1 l2 l3 : List ℚ) :
    List.zipWith (· + ·) (List.zipWith (· + ·) l1 l2) l3
      = List.zipWith (· + ·) l1 (List.zipWith (· + ·) l2 l3) := by
  induction l1 generalizing l2 l3 with
  | nil => simp
  | cons a as ih =>
    cases l2 with
    | nil => simp
    | cons b bs =>
      cases l3 with
      | nil => simp
      | cons c cs => simp [ih, add_assoc]

/-- C8: for every batch shape `s`, `QP.zero s` has `pos`, `vel` and `ang`
equal to the all-zeros tensor of shape `s + (3,)` (every in-bounds entry is
`0`), and `rot` holds the identity quaternion `[1,0,0,0]` tiled over `s`
(the entry at any in-bounds index `idx ++ [j]` is the `j`-th component of
`[1,0,0,0]`). -/
theorem c8_qp_zero_spec (s idx : List Nat) (h : inBounds idx s = true) :
    (Batched.QP.zero s).pos = Tensor.zeros (s ++ [3])
    ∧ (Batched.QP.zero s).vel = Tensor.zeros (s ++ [3])
    ∧ (Batched.QP.zero s).ang = Tensor.zeros (s ++ [3])
    ∧ (∀ j, j < 3 → (Batched.QP.zero s).pos.get (idx ++ [j]) = some 0)
    ∧ (∀ j, j < 4 →
        (Batched.QP.zero s).rot.get (idx ++ [j]) = some (([1, 0, 0, 0] : List ℚ).getD j 0)) := by
  refine ⟨rfl, rfl, rfl, fun j hj => ?_, fun j hj => ?_⟩
  · show (Tensor.zeros (s ++ [3])).get (idx ++ [j]) = some 0
    unfold Tensor.get Tensor.zeros
    rw [if_pos (inBounds_append j 3 h hj), List.getElem?_replicate, if_pos]
    rw [flatIdx_append j 3 (inBounds_length h), List.prod_append]
    have h1 := flatIdx_lt_prod h
    simp only [List.prod_cons, List.prod_nil]
    omega
  · show (Tensor.tileVec [1, 0, 0, 0] s).get (idx ++ [j]) = _
    unfold Tensor.get Tensor.tileVec
    have hlen : ([1, 0, 0, 0] : List ℚ).length = 4 := rfl
    rw [hlen, if_pos (inBounds_append j 4 h hj),
      flatIdx_append j 4 (inBounds_length h)]
    have hv := flatten_replicate_get ([1, 0, 0, 0] : List ℚ) s.prod (flatIdx idx s) j
      (flatIdx_lt_prod h) (by rw [hlen]; exact hj)
    rw [hlen] at hv
    rw [hv]
    interval_cases j <;> rfl

/-- Witness for C8: the theorem instantiated at batch shape `[2]` and
multi-index `[1]`. -/
theorem c8_qp_zero_witness :
    inBounds [1] [2] = true
    ∧ (Batched.QP.zero [2]).pos = Tensor.zeros [2, 3]
    ∧ (Batched.QP.zero [2]).pos.get [1, 2] = some 0
    ∧ (Batched.QP.zero [2]).rot.get [1, 0] = some 1 := by
  have h := c8_qp_zero_spec [2] [1] (by decide)
  refine ⟨by decide, h.1, ?_, ?_⟩
  · have h2 := h.2.2.2.1 2 (by decide)
    simpa using h2
  · have h2 := h.2.2.2.2 0 (by decide)
    simpa using h2

/-- C9: for batched `P` values of a common batch shape, `P + P` is an
elementwise sum, associative and commutative on the `vel` and `ang` fields
independently. -/
theorem c9_p_add_assoc_comm (a b c : Batched.P)
    (hab : a.sameShape b) (_hbc : b.sameShape c) :
    ((a.add b).add c).vel = (a.add (b.add c)).vel
    ∧ ((a.add b).add c).ang = (a.add (b.add c)).ang
    ∧ (a.add b).vel = (b.add a).vel
    ∧ (a.add b).ang = (b.add a).ang := by
  obtain ⟨hv, ha⟩ := hab
  refine ⟨?_, ?_, ?_, ?_⟩ <;>
    simp only [Batched.P.add, Tensor.add, Tensor.mk.injEq]
  · exact ⟨trivial, zipWith_add_assoc _ _ _⟩
  · exact ⟨trivial, zipWith_add_assoc _ _ _⟩
  · exact ⟨hv, List.zipWith_comm_of_comm _ add_comm _ _⟩
  · exact ⟨ha, List.zipWith_comm_of_comm _ add_comm _ _⟩

/-- Witness for C9: the theorem instantiated at three concrete batched `P`
values of batch shape `[2]`. -/
theorem c9_p_add_witness :
    sampleP1.sameShape sampleP2 ∧ sampleP2.sameShape sampleP3
    ∧ ((sampleP1.add sampleP2).add sampleP3).vel
        = (sampleP1.add (sampleP2.add sampleP3)).vel
    ∧ (sampleP1.add sampleP2).ang = (sampleP2.add sampleP1).ang := by
  have h := c9_p_add_assoc_comm sampleP1 sampleP2 sampleP3 ⟨rfl, rfl⟩ ⟨rfl, rfl⟩
  exact ⟨⟨rfl, rfl⟩, ⟨rfl, rfl⟩, h.1, h.2.2.2⟩

theorem substepsDefaulted_mesh_geometries (c : Config) :
    (substepsDefaulted c).mesh_geometries = c.mesh_geometries := rfl

theorem substepsDefaulted_bodies (c : Config) :
    (substepsDefaulted c).bodies = c.bodies := rfl

theorem substepsDefaulted_frozen (c : Config) :
    (substepsDefaulted c).frozen = c.frozen := rfl

theorem normalizeRest_bodies (c : Config) (geoms : List MeshGeometry) :
    (normalizeRest c geoms).bodies
      = c.bodies.map (normalizeBody (reifyGlobalFrozen c.frozen) c.friction c.elasticity) := rfl

theorem normalizeRest_mesh_geometries (c : Config) (geoms : List MeshGeometry) :
    (normalizeRest c geoms).mesh_geometries = geoms := rfl

theorem normalizeRest_frozen_all (c : Config) (geoms : List MeshGeometry) :
    (normalizeRest c geoms).frozen.all
      = ((normalizeRest c geoms).bodies.all fun b => b.frozen.all) := rfl

theorem validate_config_ok_inv {fs : FS} {rps : Option (List String)} {c out : Config}
    (h : validate_config fs rps c = .ok out) :
    ¬ c.dt ≤ 0 ∧ ∃ geoms,
      resolveMeshGeoms fs (rps.getD [""]) c.mesh_geometries = .ok geoms
      ∧ out = normalizeRest (substepsDefaulted c) geoms := by
  unfold validate_config at h
  split at h
  · exact absurd h (by simp)
  · next hdt =>
    split at h
    · exact absurd h (by simp)
    · split at h
      · exact absurd h (by simp)
      · next geoms hgeoms =>
        exact ⟨hdt, geoms, hgeoms, (Except.ok.inj h).symm⟩

theorem resolveMeshGeoms_error_mem {fs : FS} {rps : List String} :
    ∀ (l : List MeshGeometry) (e : Err),
      resolveMeshGeoms fs rps l = .error e → ∃ x ∈ l, resolveMeshGeom fs rps x = .error e := by
  intro l
  induction l with
  | nil => intro e h; simp [resolveMeshGeoms] at h
  | cons a as ih =>
    intro e h
    unfold resolveMeshGeoms at h
    split at h
    · next hfa => exact ⟨a, List.mem_cons_self a as, by rw [hfa, Except.error.inj h]⟩
    · split at h
      · next has =>
        obtain ⟨x, hx, hfx⟩ := ih e (by rw [has]; exact h)
        exact ⟨x, List.mem_cons_of_mem a hx, hfx⟩
      · exact absurd h (by simp)

theorem resolveMeshGeom_error {fs : FS} {rps : List String} {g : MeshGeometry} {e : Err}
    (h : resolveMeshGeom fs rps g = .error e) : e = .missingResource g.path := by
  unfold resolveMeshGeom at h
  split at h
  · exact absurd h (by simp)
  · split at h
    · exact (Except.error.inj h).symm
    · exact absurd h (by simp)

theorem truthy_pyOr (a b : ℚ) : truthy (pyOr a b) = (truthy a || truthy b) := by
  by_cases h : a = 0 <;> simp [truthy, pyOr, h]

theorem ite_all_position (c : Prop) [Decidable c] (g : Frozen) :
    (if c then { g with all := true } else g).position = g.position := by
  split <;> rfl

theorem ite_all_rotation (c : Prop) [Decidable c] (g : Frozen) :
    (if c then { g with all := true } else g).rotation = g.rotation := by
  split <;> rfl

theorem reifyGlobalFrozen_position (f : Frozen) :
    (reifyGlobalFrozen f).position = (if f.all then allvec else f.position) := by
  simp only [reifyGlobalFrozen]
  rw [ite_all_position]
  split <;> rfl

theorem reifyGlobalFrozen_rotation (f : Frozen) :
    (reifyGlobalFrozen f).rotation = (if f.all then allvec else f.rotation) := by
  simp only [reifyGlobalFrozen]
  rw [ite_all_rotation]
  split <;> rfl

theorem normalizeBody_inertia (F : Frozen) (fr el : ℚ) (b : Body) :
    (normalizeBody F fr el b).inertia
      = if b.inertia.x = 0 ∧ b.inertia.y = 0 ∧ b.inertia.z = 0 then allvec
        else b.inertia := rfl

theorem normalizeBody_frozen_position (F : Frozen) (fr el : ℚ) (b : Body) :
    (normalizeBody F fr el b).frozen.position
      = if b.frozen.all then allvec else
          ⟨pyOr b.frozen.position.x F.position.x,
           pyOr b.frozen.position.y F.position.y,
           pyOr b.frozen.position.z F.position.z⟩ := by
  simp only [normalizeBody]
  rw [ite_all_position]
  split <;> rfl

theorem normalizeBody_frozen_rotation (F : Frozen) (fr el : ℚ) (b : Body) :
    (normalizeBody F fr el b).frozen.rotation
      = if b.frozen.all then allvec else
          ⟨pyOr b.frozen.rotation.x F.rotation.x,
           pyOr b.frozen.rotation.y F.rotation.y,
           pyOr b.frozen.rotation.z F.rotation.z⟩ := by
  simp only [normalizeBody]
  rw [ite_all_rotation]
  split <;> rfl

theorem substepsDefaulted_friction (c : Config) :
    (substepsDefaulted c).friction = c.friction := rfl

theorem substepsDefaulted_elasticity (c : Config) :
    (substepsDefaulted c).elasticity = c.elasticity := rfl

/-- C6: `validate_config` fails with `invalidConfig` on every config whose
`dt` is not strictly positive, whatever the rest of the config holds (the
check precedes all other validation and normalization), and with a positive
`dt` this error is never produced. -/
theorem c6_dt_check (fs : FS) (rps : Option (List String)) (c : Config) :
    (c.dt ≤ 0 → validate_config fs rps c = .error .invalidConfig)
    ∧ (0 < c.dt → validate_config fs rps c ≠ .error .invalidConfig) := by
  constructor
  · intro h
    unfold validate_config
    rw [if_pos h]
  · intro h hcon
    unfold validate_config at hcon
    rw [if_neg (not_le.mpr h)] at hcon
    split at hcon
    · exact Err.noConfusion (Except.error.inj hcon)
    · split at hcon
      · next e he =>
        obtain ⟨x, _, hfx⟩ := resolveMeshGeoms_error_mem _ e he
        have hmiss := resolveMeshGeom_error hfx
        rw [Except.error.inj hcon] at hmiss
        exact Err.noConfusion hmiss
      · exact Except.noConfusion hcon

/-- Witness for C6: a config with `dt = 0` carrying a duplicate body name is
still rejected as `invalidConfig`; the minimal config with `dt = 1` is not. -/
theorem c6_dt_check_witness :
    cfgDtZero.dt ≤ 0
    ∧ validate_config fsEmpty none cfgDtZero = .error .invalidConfig
    ∧ cfgDtZero.bodies.map Body.name = ["a", "a"]
    ∧ 0 < cfgBase.dt
    ∧ validate_config fsEmpty none cfgBase ≠ .error .invalidConfig := by
  refine ⟨by norm_num [cfgDtZero, cfgBase], ?_, rfl, by norm_num [cfgBase], ?_⟩
  · exact (c6_dt_check fsEmpty none cfgDtZero).1 (by norm_num [cfgDtZero, cfgBase])
  · exact (c6_dt_check fsEmpty none cfgBase).2 (by norm_num [cfgBase])

/-- C7: after a successful `validate_config`, a body's inertia is replaced by
`(1,1,1)` exactly when all three of its components were zero, and is left
unchanged otherwise. -/
theorem c7_inertia_default {fs : FS} {rps : Option (List String)} {c out : Config}
    (h : validate_config fs rps c = .ok out) {i : Nat} {b b1 : Body}
    (hb : c.bodies[i]? = some b) (hb1 : out.bodies[i]? = some b1) :
    b1.inertia = if b.inertia.x = 0 ∧ b.inertia.y = 0 ∧ b.inertia.z = 0
      then allvec else b.inertia := by
  obtain ⟨-, geoms, -, rfl⟩ := validate_config_ok_inv h
  rw [normalizeRest_bodies, substepsDefaulted_bodies, substepsDefaulted_frozen,
    substepsDefaulted_friction, substepsDefaulted_elasticity,
    List.getElem?_map, hb, Option.map_some'] at hb1
  rw [← Option.some.inj hb1, normalizeBody_inertia]

/-- Witness for C7: in `cfgInertia`, the body with inertia `(0,0,0)` comes out
with inertia `(1,1,1)` while the body with inertia `(2,0,0)` is unchanged. -/
theorem c7_inertia_witness :
    validate_config fsEmpty none cfgInertia = .ok cfgInertiaOut
    ∧ bodyAOut.inertia = (if bodyA.inertia.x = 0 ∧ bodyA.inertia.y = 0 ∧ bodyA.inertia.z = 0
        then allvec else bodyA.inertia)
    ∧ bodyFrozOutBase.inertia
        = (if bodyFroz.inertia.x = 0 ∧ bodyFroz.inertia.y = 0 ∧ bodyFroz.inertia.z = 0
            then allvec else bodyFroz.inertia)
    ∧ bodyAOut.inertia = allvec
    ∧ bodyFrozOutBase.inertia = bodyFroz.inertia := by
  have hok : validate_config fsEmpty none cfgInertia = .ok cfgInertiaOut := by rfl
  refine ⟨hok, @c7_inertia_default fsEmpty none cfgInertia cfgInertiaOut hok 0 bodyA
    bodyAOut rfl rfl, @c7_inertia_default fsEmpty none cfgInertia cfgInertiaOut hok 1
    bodyFroz bodyFrozOutBase rfl rfl, rfl, rfl⟩

/-- C10: when the config's body list is empty and `validate_config` succeeds,
the final global freeze-all flag is true (the conjunction over no bodies),
whatever the global per-axis flags were. -/
theorem c10_empty_bodies {fs : FS} {rps : Option (List String)} {c out : Config}
    (h : validate_config fs rps c = .ok out) (hb : c.bodies = []) :
    out.frozen.all = true := by
  obtain ⟨-, geoms, -, rfl⟩ := validate_config_ok_inv h
  rw [normalizeRest_frozen_all, normalizeRest_bodies, substepsDefaulted_bodies, hb]
  rfl

/-- Witness for C10: the minimal config has no bodies and every global
per-axis flag unset, yet comes out with `frozen.all` true. -/
theorem c10_empty_bodies_witness :
    cfgBase.bodies = []
    ∧ cfgBase.frozen = emptyFrozen
    ∧ validate_config fsEmpty none cfgBase = .ok cfgBaseOut
    ∧ cfgBaseOut.frozen.all = true := by
  have hok : validate_config fsEmpty none cfgBase = .ok cfgBaseOut := by rfl
  exact ⟨rfl, rfl, hok, c10_empty_bodies hok rfl⟩

theorem truthy_reify_position (f : Frozen) :
    truthy (reifyGlobalFrozen f).position.x = (f.all || truthy f.position.x)
    ∧ truthy (reifyGlobalFrozen f).position.y = (f.all || truthy f.position.y)
    ∧ truthy (reifyGlobalFrozen f).position.z = (f.all || truthy f.position.z) := by
  rw [reifyGlobalFrozen_position]
  by_cases hf : f.all <;> simp [hf, allvec, truthy]

theorem truthy_reify_rotation (f : Frozen) :
    truthy (reifyGlobalFrozen f).rotation.x = (f.all || truthy f.rotation.x)
    ∧ truthy (reifyGlobalFrozen f).rotation.y = (f.all || truthy f.rotation.y)
    ∧ truthy (reifyGlobalFrozen f).rotation.z = (f.all || truthy f.rotation.z) := by
  rw [reifyGlobalFrozen_rotation]
  by_cases hf : f.all <;> simp [hf, allvec, truthy]

theorem truthy_normBody_position (F : Frozen) (fr el : ℚ) (b : Body) :
    truthy (normalizeBody F fr el b).frozen.position.x
        = (truthy b.frozen.position.x || b.frozen.all || truthy F.position.x)
    ∧ truthy (normalizeBody F fr el b).frozen.position.y
        = (truthy b.frozen.position.y || b.frozen.all || truthy F.position.y)
    ∧ truthy (normalizeBody F fr el b).frozen.position.z
        = (truthy b.frozen.position.z || b.frozen.all || truthy F.position.z) := by
  rw [normalizeBody_frozen_position]
  by_cases hall : b.frozen.all
  · simp [hall, allvec, truthy]
  · have hall2 : b.frozen.all = false := by simpa using hall
    simp [hall2, truthy_pyOr]

theorem truthy_normBody_rotation (F : Frozen) (fr el : ℚ) (b : Body) :
    truthy (normalizeBody F fr el b).frozen.rotation.x
        = (truthy b.frozen.rotation.x || b.frozen.all || truthy F.rotation.x)
    ∧ truthy (normalizeBody F fr el b).frozen.rotation.y
        = (truthy b.frozen.rotation.y || b.frozen.all || truthy F.rotation.y)
    ∧ truthy (normalizeBody F fr el b).frozen.rotation.z
        = (truthy b.frozen.rotation.z || b.frozen.all || truthy F.rotation.z) := by
  rw [normalizeBody_frozen_rotation]
  by_cases hall : b.frozen.all
  · simp [hall, allvec, truthy]
  · have hall2 : b.frozen.all = false := by simpa using hall
    simp [hall2, truthy_pyOr]

/-- C3: after a successful `validate_config`, each body's per-axis frozen flag
is set exactly when that body's own flag was set, the body's freeze-all flag
was set, or the corresponding global per-axis flag (after global freeze-all
expansion) was set; and the final global freeze-all flag is the conjunction
of the output bodies' derived freeze-all flags. -/
theorem c3_frozen_flags {fs : FS} {rps : Option (List String)} {c out : Config}
    (h : validate_config fs rps c = .ok out) {i : Nat} {b b1 : Body}
    (hb : c.bodies[i]? = some b) (hb1 : out.bodies[i]? = some b1) :
    (truthy b1.frozen.position.x = (truthy b.frozen.position.x || b.frozen.all
        || (c.frozen.all || truthy c.frozen.position.x)))
    ∧ (truthy b1.frozen.position.y = (truthy b.frozen.position.y || b.frozen.all
        || (c.frozen.all || truthy c.frozen.position.y)))
    ∧ (truthy b1.frozen.position.z = (truthy b.frozen.position.z || b.frozen.all
        || (c.frozen.all || truthy c.frozen.position.z)))
    ∧ (truthy b1.frozen.rotation.x = (truthy b.frozen.rotation.x || b.frozen.all
        || (c.frozen.all || truthy c.frozen.rotation.x)))
    ∧ (truthy b1.frozen.rotation.y = (truthy b.frozen.rotation.y || b.frozen.all
        || (c.frozen.all || truthy c.frozen.rotation.y)))
    ∧ (truthy b1.frozen.rotation.z = (truthy b.frozen.rotation.z || b.frozen.all
        || (c.frozen.all || truthy c.frozen.rotation.z)))
    ∧ out.frozen.all = (out.bodies.all fun bb => bb.frozen.all) := by
  obtain ⟨-, geoms, -, rfl⟩ := validate_config_ok_inv h
  rw [normalizeRest_bodies, substepsDefaulted_bodies, substepsDefaulted_frozen,
    substepsDefaulted_friction, substepsDefaulted_elasticity,
    List.getElem?_map, hb, Option.map_some'] at hb1
  rw [← Option.some.inj hb1]
  obtain ⟨hpx, hpy, hpz⟩ :=
    truthy_normBody_position (reifyGlobalFrozen c.frozen) c.friction c.elasticity b
  obtain ⟨hrx, hry, hrz⟩ :=
    truthy_normBody_rotation (reifyGlobalFrozen c.frozen) c.friction c.elasticity b
  obtain ⟨gpx, gpy, gpz⟩ := truthy_reify_position c.frozen
  obtain ⟨grx, gry, grz⟩ := truthy_reify_rotation c.frozen
  refine ⟨?_, ?_, ?_, ?_, ?_, ?_, normalizeRest_frozen_all _ _⟩
  · rw [hpx, gpx]
  · rw [hpy, gpy]
  · rw [hpz, gpz]
  · rw [hrx, grx]
  · rw [hry, gry]
  · rw [hrz, grz]

/-- Witness for C3: the theorem instantiated on `cfgFroz` (global
`position.x` flag set, body's `rotation.y` flag set). -/
theorem c3_frozen_flags_witness :
    validate_config fsEmpty none cfgFroz = .ok cfgFrozOut
    ∧ truthy bodyFrozOut.frozen.position.x
        = (truthy bodyFroz.frozen.position.x || bodyFroz.frozen.all
            || (cfgFroz.frozen.all || truthy cfgFroz.frozen.position.x))
    ∧ truthy bodyFrozOut.frozen.rotation.y
        = (truthy bodyFroz.frozen.rotation.y || bodyFroz.frozen.all
            || (cfgFroz.frozen.all || truthy cfgFroz.frozen.rotation.y))
    ∧ cfgFrozOut.frozen.all = (cfgFrozOut.bodies.all fun bb => bb.frozen.all) := by
  have hok : validate_config fsEmpty none cfgFroz = .ok cfgFrozOut := by rfl
  have h := @c3_frozen_flags fsEmpty none cfgFroz cfgFrozOut hok 0 bodyFroz
    bodyFrozOut rfl rfl
  exact ⟨hok, h.1, h.2.2.2.2.1, h.2.2.2.2.2.2⟩

/-- C1 (amended): for a mesh geometry with a non-empty path, `validate_config`
discards the pre-existing vertex and face data, searches the resource
directories in order, loads the mesh from the first directory where the
joined path exists (vertices and flattened face indices replace the cleared
lists; the loaded vertex and face normals are appended after any pre-existing
normal data, which is NOT discarded), fails with `missingResource` naming the
path when no directory contains the file, and clears the path field on
success; a successful `validate_config` resolves every mesh geometry this
way. -/
theorem c1_mesh_resolution (fs : FS) (rps : List String) (g : MeshGeometry)
    (hp : g.path ≠ "") :
    (∀ rp, rps.find? (fun r => fs.fileExists (pathJoin r g.path)) = some rp →
      resolveMeshGeom fs rps g = .ok
        { name := g.name,
          path := "",
          vertices := (fs.load (pathJoin rp g.path)).vertices,
          faces := ((fs.load (pathJoin rp g.path)).faces).flatten,
          vertex_normals := g.vertex_normals ++ (fs.load (pathJoin rp g.path)).vertex_normals,
          face_normals := g.face_normals ++ (fs.load (pathJoin rp g.path)).face_normals })
    ∧ (rps.find? (fun r => fs.fileExists (pathJoin r g.path)) = none →
      resolveMeshGeom fs rps g = .error (.missingResource g.path))
    ∧ (∀ (rpsOpt : Option (List String)) (c out : Config), rpsOpt.getD [""] = rps →
        validate_config fs rpsOpt c = .ok out →
        resolveMeshGeoms fs rps c.mesh_geometries = .ok out.mesh_geometries) := by
  refine ⟨fun rp hrp => ?_, fun hnone => ?_, fun rpsOpt c out hrps hok => ?_⟩
  · unfold resolveMeshGeom
    rw [if_neg hp, hrp]
    rfl
  · unfold resolveMeshGeom
    rw [if_neg hp, hnone]
  · obtain ⟨-, geoms, hgeoms, rfl⟩ := validate_config_ok_inv hok
    rw [normalizeRest_mesh_geometries]
    rw [hrps] at hgeoms
    exact hgeoms

/-- Witness for C1: `geomSample` resolved against a filesystem holding
`m.obj` (first and only directory hit) and against an empty filesystem
(missing resource), and the resolution as performed by `validate_config`. -/
theorem c1_mesh_witness :
    geomSample.path ≠ ""
    ∧ [""].find? (fun r => fsMesh.fileExists (pathJoin r geomSample.path)) = some ""
    ∧ resolveMeshGeom fsMesh [""] geomSample = .ok geomSampleOut
    ∧ [""].find? (fun r => fsEmpty.fileExists (pathJoin r geomSample.path)) = none
    ∧ resolveMeshGeom fsEmpty [""] geomSample = .error (.missingResource "m.obj")
    ∧ validate_config fsMesh (some [""]) cfgMesh = .ok cfgMeshOut
    ∧ resolveMeshGeoms fsMesh [""] cfgMesh.mesh_geometries = .ok cfgMeshOut.mesh_geometries := by
  have h1 := c1_mesh_resolution fsMesh [""] geomSample (by simp [geomSample])
  have h2 := c1_mesh_resolution fsEmpty [""] geomSample (by simp [geomSample])
  have hok : validate_config fsMesh (some [""]) cfgMesh = .ok cfgMeshOut := by rfl
  refine ⟨by simp [geomSample], by rfl, ?_, by rfl, ?_, hok, ?_⟩
  · exact (h1.1 "" (by rfl)).trans (by rfl)
  · exact h2.2.1 (by rfl)
  · exact h1.2.2 (some [""]) cfgMesh cfgMeshOut rfl hok

/-- Counterexample to C1 as stated: pre-existing vertex-normal and
face-normal data is not discarded.  On `cfgMesh`, whose only geometry carries
a stale vertex normal `(0,0,1)` and a stale face normal `(5,5,5)`, the
output geometry holds the stale normals followed by the loaded ones, not the
loaded normals alone. -/
theorem c1_counterexample :
    validate_config fsMesh (some [""]) cfgMesh = .ok cfgMeshOut
    ∧ cfgMeshOut.mesh_geometries = [geomSampleOut]
    ∧ geomSampleOut.vertex_normals = geomSample.vertex_normals ++ meshSample.vertex_normals
    ∧ geomSampleOut.face_normals = geomSample.face_normals ++ meshSample.face_normals
    ∧ geomSampleOut.vertex_normals ≠ meshSample.vertex_normals
    ∧ geomSampleOut.face_normals ≠ meshSample.face_normals := by
  refine ⟨by rfl, rfl, rfl, rfl, by simp [geomSampleOut, meshSample], by
    simp [geomSampleOut, meshSample]⟩
